import Mathlib

/-
Verification of the CollectPoints module (SlicerIGT): a shallow embedding of
`vtkMRMLCollectPointsNode.cxx` (the MRML parameter node together with
`vtkSlicerCollectPointsLogic`), and proofs of the specified properties of the
point-collection engine: coordinate computation, the minimum-distance
admission gate, the dual-sink append/undo/clear protocol, and mesh topology
bookkeeping.

Modelling conventions:
* `double` coordinates and distances are modelled as `ℚ` (exact arithmetic in
  place of IEEE doubles); where the source compares `sqrt(d2) < min` under the
  guard `min > 0`, the embedding compares `d2 < min^2`, which is equivalent
  there since both sides of the source comparison are nonnegative.  The
  specification-side gate predicate `Admit` keeps the real square root.
* VTK object references (`vtkPoints`, `vtkPolyData` possibly `NULL`) are
  `Option`s; a `NULL` cell array holds no cells and is the empty list.
* The scene-graph object graph is snapshotted into one record per node; the
  logic functions return the updated snapshot (mutation becomes state
  passing).  `vtkErrorMacro` failures become an `Option` error value.
-/

namespace CollectPoints

/-- A 3-component point, the unit of exchange between sampler, gate and sink. -/
structure Point where
  x : ℚ
  y : ℚ
  z : ℚ
deriving DecidableEq

/-- `vtkMath::Distance2BetweenPoints`: squared Euclidean distance. -/
def distance2BetweenPoints (a b : Point) : ℚ :=
  (a.x - b.x) ^ 2 + (a.y - b.y) ^ 2 + (a.z - b.z) ^ 2

/-- The `CollectMode` enum of `vtkMRMLCollectPointsNode` (`Manual`, `Automatic`). -/
inductive CollectMode where
  | Manual
  | Automatic
deriving DecidableEq

/-- One markups fiducial: a label and a position. -/
structure Fiducial where
  label : String
  position : Point
deriving DecidableEq

/-- `vtkMRMLMarkupsFiducialNode`: the ordered point-set sink. -/
structure MarkupsFiducialNode where
  fiducials : List Fiducial
deriving DecidableEq

def MarkupsFiducialNode.GetNumberOfFiducials (m : MarkupsFiducialNode) : Nat :=
  m.fiducials.length

def MarkupsFiducialNode.GetNthFiducialPosition (m : MarkupsFiducialNode) (i : Nat) : Point :=
  (m.fiducials.getD i ⟨"", ⟨0, 0, 0⟩⟩).position

/-- `AddFiducialFromArray`: appends a fiducial (label assigned afterwards by
`SetNthFiducialLabel`) and returns its index. -/
def MarkupsFiducialNode.AddFiducialFromArray (m : MarkupsFiducialNode) (p : Point) :
    MarkupsFiducialNode × Nat :=
  ({ fiducials := m.fiducials ++ [⟨"", p⟩] }, m.fiducials.length)

def MarkupsFiducialNode.SetNthFiducialLabel (m : MarkupsFiducialNode) (i : Nat)
    (label : String) : MarkupsFiducialNode :=
  { fiducials := m.fiducials.set i ⟨label, (m.fiducials.getD i ⟨"", ⟨0, 0, 0⟩⟩).position⟩ }

def MarkupsFiducialNode.RemoveMarkup (m : MarkupsFiducialNode) (i : Nat) :
    MarkupsFiducialNode :=
  { fiducials := m.fiducials.eraseIdx i }

def MarkupsFiducialNode.RemoveAllMarkups (_ : MarkupsFiducialNode) : MarkupsFiducialNode :=
  { fiducials := [] }

/-- `vtkPolyData`: point coordinates (possibly `NULL`) plus the vertex, line and
polygon cell arrays.  Each cell is the list of its point ids; a `NULL` cell
array holds no cells and is modelled as `[]`. -/
structure PolyData where
  points : Option (List Point)
  verts : List (List Nat)
  lines : List (List Nat)
  polys : List (List Nat)
deriving DecidableEq

/-- A freshly constructed `vtkPolyData`: no point array, no cells. -/
def emptyPolyData : PolyData :=
  { points := none, verts := [], lines := [], polys := [] }

/-- `GetNumberOfPoints` of a poly data: 0 when the point array is `NULL`. -/
def PolyData.GetNumberOfPoints (polyData : PolyData) : Nat :=
  (polyData.points.getD []).length

/-- `vtkMRMLModelNode`: the mesh sink; its poly data may be `NULL`. -/
structure ModelNode where
  polyData : Option PolyData
deriving DecidableEq

/-- The output node bound to the session: a markups node, a model node, or a
node of any other (unsupported) type. -/
inductive OutputNode where
  | markups (node : MarkupsFiducialNode)
  | model (node : ModelNode)
  | other
deriving DecidableEq

/-- `vtkMRMLLinearTransformNode`, as the core consumes it: the external
transform collaborator answers `GetMatrixTransformToWorld` and
`GetMatrixTransformToNode(anchor)` (the node's pose relative to the currently
bound anchor node).  Matrices are 4×4, row/column indexed. -/
structure LinearTransformNode where
  matrixTransformToWorld : Fin 4 → Fin 4 → ℚ
  matrixTransformToNode : Fin 4 → Fin 4 → ℚ

/-- `vtkMRMLCollectPointsNode` together with the nodes its references resolve
to: configuration plus sampling frame, optional anchor frame and output sink. -/
structure CollectPointsNode where
  labelBase : String
  labelCounter : Nat
  minimumDistanceMm : ℚ
  collectMode : CollectMode
  samplingTransformNode : Option LinearTransformNode
  anchorTransformNode : Option LinearTransformNode
  outputNode : Option OutputNode

/-- `vtkSlicerCollectPointsLogic::ComputeMinimumDistanceFromPreviousPointMm`:
the configured minimum distance if in automatic collect mode, else 0. -/
def ComputeMinimumDistanceFromPreviousPointMm (collectPointsNode : CollectPointsNode) : ℚ :=
  if collectPointsNode.collectMode = CollectMode.Automatic then
    collectPointsNode.minimumDistanceMm
  else
    0

/-- `vtkSlicerCollectPointsLogic::ComputePointCoordinates`: `none` models
`success = false` (no sampling transform node set); otherwise the translation
column of the sampling node's pose, relative to world when no anchor is set,
relative to the anchor node otherwise. -/
def ComputePointCoordinates (collectPointsNode : CollectPointsNode) : Option Point :=
  match collectPointsNode.samplingTransformNode with
  | none => none
  | some samplingNode =>
    match collectPointsNode.anchorTransformNode with
    | none =>
      let samplingToWorld := samplingNode.matrixTransformToWorld
      some ⟨samplingToWorld 0 3, samplingToWorld 1 3, samplingToWorld 2 3⟩
    | some _ =>
      let samplingToAnchor := samplingNode.matrixTransformToNode
      some ⟨samplingToAnchor 0 3, samplingToAnchor 1 3, samplingToAnchor 2 3⟩

/-- `vtkSlicerCollectPointsLogic::UpdateCellsForPolyData`: one single-point
vertex cell per point, in point-index order; lines and polys are set to `NULL`. -/
def UpdateCellsForPolyData (polyData : PolyData) : PolyData :=
  let numberOfPoints := polyData.GetNumberOfPoints
  let verticesCellArray := (List.range numberOfPoints).map (fun ptId => [ptId])
  { polyData with verts := verticesCellArray, lines := [], polys := [] }

/-- `vtkSlicerCollectPointsLogic::AddPointToMarkups`.  The source guard is
`min > 0 && n > 0` and inside it `sqrt(d2) < min`; see the header comment for
the `d2 < min^2` encoding. -/
def AddPointToMarkups (collectPointsNode : CollectPointsNode) (pointCoordinates : Point) :
    CollectPointsNode :=
  match collectPointsNode.outputNode with
  | some (OutputNode.markups markupsNode) =>
    let numberOfPoints := markupsNode.GetNumberOfFiducials
    let minimumDistanceFromPreviousPointMm :=
      ComputeMinimumDistanceFromPreviousPointMm collectPointsNode
    if 0 < minimumDistanceFromPreviousPointMm ∧ 0 < numberOfPoints ∧
        distance2BetweenPoints pointCoordinates
            (markupsNode.GetNthFiducialPosition (numberOfPoints - 1)) <
          minimumDistanceFromPreviousPointMm ^ 2 then
      collectPointsNode
    else
      let markupLabel := collectPointsNode.labelBase ++ toString collectPointsNode.labelCounter
      let added := markupsNode.AddFiducialFromArray pointCoordinates
      let newMarkupsNode := added.1.SetNthFiducialLabel added.2 markupLabel
      { collectPointsNode with
          outputNode := some (OutputNode.markups newMarkupsNode),
          labelCounter := collectPointsNode.labelCounter + 1 }
  | _ => collectPointsNode

/-- `vtkSlicerCollectPointsLogic::AddPointToModel`.  A `NULL` poly data or
point array is created and installed before the gate runs, exactly as in the
source; the gate encoding is as in `AddPointToMarkups`. -/
def AddPointToModel (collectPointsNode : CollectPointsNode) (pointCoordinates : Point) :
    CollectPointsNode :=
  match collectPointsNode.outputNode with
  | some (OutputNode.model modelNode) =>
    let polyData0 := modelNode.polyData.getD emptyPolyData
    let points := polyData0.points.getD []
    let polyData := { polyData0 with points := some points }
    let numberOfPoints := points.length
    let minimumDistanceFromPreviousPointMm :=
      ComputeMinimumDistanceFromPreviousPointMm collectPointsNode
    if 0 < minimumDistanceFromPreviousPointMm ∧ 0 < numberOfPoints ∧
        distance2BetweenPoints pointCoordinates (points.getD (numberOfPoints - 1) ⟨0, 0, 0⟩) <
          minimumDistanceFromPreviousPointMm ^ 2 then
      { collectPointsNode with outputNode := some (OutputNode.model { polyData := some polyData }) }
    else
      let newPolyData := UpdateCellsForPolyData { polyData with
        points := some (points ++ [pointCoordinates]) }
      { collectPointsNode with
          outputNode := some (OutputNode.model { polyData := some newPolyData }) }
  | _ => collectPointsNode

/-- `vtkSlicerCollectPointsLogic::RemoveLastPointFromModel`: ensures poly data
and points exist; when empty, installs a fresh empty point array and returns;
otherwise copies all but the last point and rebuilds the cells. -/
def RemoveLastPointFromModel (modelNode : ModelNode) : ModelNode :=
  let polyData := modelNode.polyData.getD emptyPolyData
  match polyData.points with
  | none => { polyData := some { polyData with points := some [] } }
  | some oldPoints =>
    if oldPoints.length = 0 then
      { polyData := some { polyData with points := some [] } }
    else
      let numberOfPointsToRetain := oldPoints.length - 1
      let newPoints := oldPoints.take numberOfPointsToRetain
      { polyData := some (UpdateCellsForPolyData { polyData with points := some newPoints }) }

/-- The failures of the controller, named as in the specification's error
taxonomy; each corresponds to one `vtkErrorMacro` + early return in the source. -/
inductive AddPointError where
  | NoSamplingFrame
  | NoOutput
  | CoordinateFailure
  | UnsupportedOutputKind
deriving DecidableEq

/-- `vtkSlicerCollectPointsLogic::AddPoint`: precondition checks in source
order (sampling transform node, then output node), then coordinate
computation, then dispatch on the concrete output node type. -/
def AddPoint (collectPointsNode : CollectPointsNode) :
    CollectPointsNode × Option AddPointError :=
  match collectPointsNode.samplingTransformNode with
  | none => (collectPointsNode, some AddPointError.NoSamplingFrame)
  | some _ =>
    match collectPointsNode.outputNode with
    | none => (collectPointsNode, some AddPointError.NoOutput)
    | some outputNode =>
      match ComputePointCoordinates collectPointsNode with
      | none => (collectPointsNode, some AddPointError.CoordinateFailure)
      | some pointCoordinates =>
        match outputNode with
        | OutputNode.markups _ => (AddPointToMarkups collectPointsNode pointCoordinates, none)
        | OutputNode.model _ => (AddPointToModel collectPointsNode pointCoordinates, none)
        | OutputNode.other => (collectPointsNode, some AddPointError.UnsupportedOutputKind)

/-- `vtkSlicerCollectPointsLogic::RemoveLastPoint`: dispatches on the output
node type; for markups a no-op when empty, else removes the final markup. -/
def RemoveLastPoint (collectPointsNode : CollectPointsNode) :
    CollectPointsNode × Option AddPointError :=
  match collectPointsNode.outputNode with
  | none => (collectPointsNode, some AddPointError.NoOutput)
  | some (OutputNode.markups outputMarkupsNode) =>
    let numberOfPoints := outputMarkupsNode.GetNumberOfFiducials
    if numberOfPoints = 0 then
      (collectPointsNode, none)
    else
      let lastPointId := numberOfPoints - 1
      ({ collectPointsNode with
          outputNode := some (OutputNode.markups (outputMarkupsNode.RemoveMarkup lastPointId)) },
        none)
  | some (OutputNode.model outputModelNode) =>
    ({ collectPointsNode with
        outputNode := some (OutputNode.model (RemoveLastPointFromModel outputModelNode)) },
      none)
  | some OutputNode.other => (collectPointsNode, some AddPointError.UnsupportedOutputKind)

/-- `vtkSlicerCollectPointsLogic::RemoveAllPoints`: markups are cleared, a
model node gets a fresh empty poly data. -/
def RemoveAllPoints (collectPointsNode : CollectPointsNode) :
    CollectPointsNode × Option AddPointError :=
  match collectPointsNode.outputNode with
  | none => (collectPointsNode, some AddPointError.NoOutput)
  | some (OutputNode.markups outputMarkupsNode) =>
    ({ collectPointsNode with
        outputNode := some (OutputNode.markups outputMarkupsNode.RemoveAllMarkups) }, none)
  | some (OutputNode.model _) =>
    ({ collectPointsNode with outputNode := some (OutputNode.model { polyData := some emptyPolyData }) },
      none)
  | some OutputNode.other => (collectPointsNode, some AddPointError.UnsupportedOutputKind)

/-- `vtkSlicerCollectPointsLogic::ProcessMRMLNodesEvents` for an event on the
parameter node; the flag says whether the event is `InputDataModifiedEvent`
(the frame-change notification). -/
def ProcessMRMLNodesEvents (collectPointsNode : CollectPointsNode)
    (eventIsInputDataModified : Bool) : CollectPointsNode :=
  if eventIsInputDataModified then
    if collectPointsNode.collectMode = CollectMode.Automatic then
      if collectPointsNode.outputNode.isNone || collectPointsNode.samplingTransformNode.isNone then
        { collectPointsNode with collectMode := CollectMode.Manual }
      else
        (AddPoint collectPointsNode).1
    else
      collectPointsNode
  else
    collectPointsNode

/-- `vtkMRMLCollectPointsNode::GetNumberOfPointsInOutput`. -/
def GetNumberOfPointsInOutput (collectPointsNode : CollectPointsNode) : Nat :=
  match collectPointsNode.outputNode with
  | none => 0
  | some (OutputNode.markups outputMarkupsNode) => outputMarkupsNode.GetNumberOfFiducials
  | some (OutputNode.model outputModelNode) =>
    match outputModelNode.polyData with
    | none => 0
    | some outputPolyData => outputPolyData.GetNumberOfPoints
  | some OutputNode.other => 0

/-- The reference wiring of `vtkMRMLCollectPointsNode`: the node IDs stored
under the sampling-transform and anchor-transform reference roles (`NULL` is
`none`). -/
structure NodeReferences where
  samplingTransformNodeID : Option String
  anchorTransformNodeID : Option String
deriving DecidableEq

/-- `vtkMRMLCollectPointsNode::SetAndObserveSamplingTransformNodeID`: no-op
when the ID is unchanged; rejected (state kept) when the ID equals the current
anchor ID; otherwise the reference is replaced. -/
def SetAndObserveSamplingTransformNodeID (node : NodeReferences) (nodeID : Option String) :
    NodeReferences :=
  if nodeID.isSome ∧ node.samplingTransformNodeID.isSome ∧
      nodeID = node.samplingTransformNodeID then
    node
  else if nodeID.isSome ∧ node.anchorTransformNodeID.isSome ∧
      nodeID = node.anchorTransformNodeID then
    node
  else
    { node with samplingTransformNodeID := nodeID }

/-- `vtkMRMLCollectPointsNode::SetAndObserveAnchorTransformNodeID`: symmetric
to the sampling setter, rejecting the current sampling ID. -/
def SetAndObserveAnchorTransformNodeID (node : NodeReferences) (nodeID : Option String) :
    NodeReferences :=
  if nodeID.isSome ∧ node.anchorTransformNodeID.isSome ∧
      nodeID = node.anchorTransformNodeID then
    node
  else if nodeID.isSome ∧ node.samplingTransformNodeID.isSome ∧
      nodeID = node.samplingTransformNodeID then
    node
  else
    { node with anchorTransformNodeID := nodeID }

/-- `vtkMRMLCollectPointsNode::GetSamplingTransformNode`: resolves the stored
reference ID in the scene (the `SafeDownCast` of `GetNodeReference`). -/
def GetSamplingTransformNode (node : NodeReferences)
    (scene : String → Option LinearTransformNode) : Option LinearTransformNode :=
  match node.samplingTransformNodeID with
  | none => none
  | some nodeID => scene nodeID

/-- Deprecated `vtkMRMLCollectPointsNode::GetProbeTransformNode`: returns
`GetSamplingTransformNode` (after a deprecation warning). -/
def GetProbeTransformNode (node : NodeReferences)
    (scene : String → Option LinearTransformNode) : Option LinearTransformNode :=
  GetSamplingTransformNode node scene

/-- Deprecated `vtkMRMLCollectPointsNode::SetAndObserveProbeTransformNodeID`.
The source body calls `SetAndObserveProbeTransformNodeID` itself (not the
sampling setter), so every call recurses unconditionally; the embedding makes
the call depth explicit as fuel, `none` meaning the call never returns. -/
def SetAndObserveProbeTransformNodeID :
    Nat → NodeReferences → Option String → Option NodeReferences
  | 0, _, _ => none
  | fuel + 1, node, nodeID => SetAndObserveProbeTransformNodeID fuel node nodeID

/-- Modelled from the spec (§4.2 Distance Gate), for comparison with the inline
gate of the source: admit when `minimumDistanceMm ≤ 0` or no previous point,
otherwise admit iff the Euclidean distance from the previous point is at least
`minimumDistanceMm`. -/
def Admit (candidate : Point) (previous : Option Point) (minimumDistanceMm : ℚ) : Prop :=
  minimumDistanceMm ≤ 0 ∨
    match previous with
    | none => True
    | some prev =>
      (minimumDistanceMm : ℝ) ≤ Real.sqrt ((distance2BetweenPoints candidate prev : ℚ) : ℝ)

/-- The point list currently stored in a mesh sink (empty when the poly data
or its point array is `NULL`). -/
def modelPointList (modelNode : ModelNode) : List Point :=
  match modelNode.polyData with
  | none => []
  | some polyData => polyData.points.getD []

/-- The mesh-sink invariant: whenever the poly data exists, its topology is
exactly one single-point vertex cell per point, in point-index order, and no
line or polygon cells. -/
def MeshInvariant (modelNode : ModelNode) : Prop :=
  ∀ polyData, modelNode.polyData = some polyData →
    polyData.verts = (List.range polyData.GetNumberOfPoints).map (fun ptId => [ptId]) ∧
    polyData.lines = [] ∧ polyData.polys = []

/-- One mutating operation on a mesh sink, as the controller performs it: an
append carries the candidate point and the gate-relevant session configuration
in force at that call. -/
inductive MeshOp where
  | append (candidate : Point) (minimumDistanceMm : ℚ) (collectMode : CollectMode)
  | removeLast
  | removeAll

/-- A session snapshot whose output is the given mesh sink (used to drive the
model-sink operations through the controller functions). -/
def nodeWithModel (modelNode : ModelNode) (minimumDistanceMm : ℚ)
    (collectMode : CollectMode) : CollectPointsNode :=
  { labelBase := "P", labelCounter := 0, minimumDistanceMm := minimumDistanceMm,
    collectMode := collectMode, samplingTransformNode := none, anchorTransformNode := none,
    outputNode := some (OutputNode.model modelNode) }

/-- The mesh sink held by a session snapshot (defaulting to an empty model
node when the output is not a model). -/
def modelOfNode (node : CollectPointsNode) : ModelNode :=
  match node.outputNode with
  | some (OutputNode.model modelNode) => modelNode
  | _ => { polyData := none }

def applyMeshOp (modelNode : ModelNode) : MeshOp → ModelNode
  | MeshOp.append candidate minimumDistanceMm collectMode =>
    modelOfNode (AddPointToModel (nodeWithModel modelNode minimumDistanceMm collectMode) candidate)
  | MeshOp.removeLast => RemoveLastPointFromModel modelNode
  | MeshOp.removeAll =>
    modelOfNode (RemoveAllPoints (nodeWithModel modelNode 0 CollectMode.Manual)).1

/-- One request entering the controller during a session's lifetime. -/
inductive SessionOp where
  | addPoint
  | removeLastPoint
  | removeAllPoints
  | inputDataModifiedEvent

def applySessionOp (node : CollectPointsNode) : SessionOp → CollectPointsNode
  | SessionOp.addPoint => (AddPoint node).1
  | SessionOp.removeLastPoint => (RemoveLastPoint node).1
  | SessionOp.removeAllPoints => (RemoveAllPoints node).1
  | SessionOp.inputDataModifiedEvent => ProcessMRMLNodesEvents node true

/-- One assignment to the sampling or anchor reference role. -/
inductive ReferenceOp where
  | setSampling (nodeID : Option String)
  | setAnchor (nodeID : Option String)

def applyReferenceOp (node : NodeReferences) : ReferenceOp → NodeReferences
  | ReferenceOp.setSampling nodeID => SetAndObserveSamplingTransformNodeID node nodeID
  | ReferenceOp.setAnchor nodeID => SetAndObserveAnchorTransformNodeID node nodeID

/-- A freshly constructed `vtkMRMLCollectPointsNode` has neither reference set. -/
def initialReferences : NodeReferences :=
  { samplingTransformNodeID := none, anchorTransformNodeID := none }

/-- The sampling and anchor references, when both set, never name the same
frame. -/
def ReferencesDistinct (node : NodeReferences) : Prop :=
  node.samplingTransformNodeID = none ∨ node.anchorTransformNodeID = none ∨
    node.samplingTransformNodeID ≠ node.anchorTransformNodeID

/-- The previous point the gate consults: the last point of the list currently
stored in the sink, absent when the sink is empty. -/
def lastPointOf (points : List Point) : Option Point :=
  if points.length = 0 then none
  else some (points.getD (points.length - 1) ⟨0, 0, 0⟩)

/-- The previous point a markups sink offers the gate: the position of its
last fiducial, absent when the sink is empty. -/
def lastMarkupsPoint (m : MarkupsFiducialNode) : Option Point :=
  if m.GetNumberOfFiducials = 0 then none
  else some (m.GetNthFiducialPosition (m.GetNumberOfFiducials - 1))

section Lemmas

theorem distance2BetweenPoints_nonneg (a b : Point) : 0 ≤ distance2BetweenPoints a b := by
  unfold distance2BetweenPoints
  positivity

theorem admit_some_iff (candidate prev : Point) (d : ℚ) (h : 0 < d) :
    Admit candidate (some prev) d ↔ ¬ distance2BetweenPoints candidate prev < d ^ 2 := by
  show d ≤ 0 ∨
      (d : ℝ) ≤ Real.sqrt ((distance2BetweenPoints candidate prev : ℚ) : ℝ) ↔ _
  have hd : (0 : ℝ) < (d : ℝ) := by exact_mod_cast h
  have hsq : ((d : ℝ) ≤ Real.sqrt ((distance2BetweenPoints candidate prev : ℚ) : ℝ)) ↔
      ¬ distance2BetweenPoints candidate prev < d ^ 2 := by
    rw [Real.le_sqrt' hd, not_lt]
    constructor
    · intro hle
      exact_mod_cast hle
    · intro hle
      exact_mod_cast hle
  constructor
  · rintro (hle | hsqrt)
    · exact absurd hle (not_le.mpr h)
    · exact hsq.mp hsqrt
  · intro hge
    exact Or.inr (hsq.mpr hge)

theorem admit_none (candidate : Point) (d : ℚ) : Admit candidate none d := by
  exact Or.inr trivial

theorem admit_of_nonpos (candidate : Point) (previous : Option Point) (d : ℚ)
    (h : d ≤ 0) : Admit candidate previous d := by
  exact Or.inl h

theorem getD_append_length {α : Type} (l : List α) (a d : α) :
    (l ++ [a]).getD l.length d = a := by
  induction l with
  | nil => rfl
  | cons x xs ih => simp [ih]

theorem set_append_length {α : Type} (l : List α) (a b : α) :
    (l ++ [a]).set l.length b = l ++ [b] := by
  induction l with
  | nil => rfl
  | cons x xs ih => simp [ih]

end Lemmas

/-- A transform node used as a concrete sampling frame in the checks below:
its world pose translates by (3, 13, 23), its anchor-relative pose by
(4, 14, 24). -/
def exampleTransform : LinearTransformNode :=
  { matrixTransformToWorld := fun i j =>
      if j = 3 then (if i = 0 then 3 else if i = 1 then 13 else if i = 2 then 23 else 1)
      else if (i : Nat) = (j : Nat) then 1 else 0,
    matrixTransformToNode := fun i j =>
      if j = 3 then (if i = 0 then 4 else if i = 1 then 14 else if i = 2 then 24 else 1)
      else if (i : Nat) = (j : Nat) then 1 else 0 }

/-- A session with neither a sampling frame nor an output sink bound. -/
def unboundNode : CollectPointsNode :=
  { labelBase := "P", labelCounter := 0, minimumDistanceMm := 10,
    collectMode := CollectMode.Manual, samplingTransformNode := none,
    anchorTransformNode := none, outputNode := none }

/-- A session with a sampling frame bound but no output sink. -/
def sampledNode : CollectPointsNode :=
  { unboundNode with samplingTransformNode := some exampleTransform }

section ReferenceLemmas

theorem setSampling_rejects_anchor (node : NodeReferences) (nodeID : Option String)
    (hsome : nodeID.isSome) (heq : nodeID = node.anchorTransformNodeID) :
    SetAndObserveSamplingTransformNodeID node nodeID = node := by
  unfold SetAndObserveSamplingTransformNodeID
  split
  · rfl
  · split
    · rfl
    · rename_i h2
      exact absurd ⟨hsome, by rw [← heq]; exact hsome, heq⟩ h2

theorem setAnchor_rejects_sampling (node : NodeReferences) (nodeID : Option String)
    (hsome : nodeID.isSome) (heq : nodeID = node.samplingTransformNodeID) :
    SetAndObserveAnchorTransformNodeID node nodeID = node := by
  unfold SetAndObserveAnchorTransformNodeID
  split
  · rfl
  · split
    · rfl
    · rename_i h2
      exact absurd ⟨hsome, by rw [← heq]; exact hsome, heq⟩ h2

theorem referencesDistinct_apply (node : NodeReferences) (op : ReferenceOp)
    (hd : ReferencesDistinct node) : ReferencesDistinct (applyReferenceOp node op) := by
  cases op with
  | setSampling nodeID =>
    simp only [applyReferenceOp]
    unfold SetAndObserveSamplingTransformNodeID
    split
    · exact hd
    · split
      · exact hd
      · rename_i h2
        by_cases hns : nodeID = none
        · subst hns
          exact Or.inl rfl
        · by_cases hna : node.anchorTransformNodeID = none
          · exact Or.inr (Or.inl hna)
          · refine Or.inr (Or.inr ?_)
            intro hEq
            exact h2 ⟨Option.isSome_iff_ne_none.mpr hns,
              Option.isSome_iff_ne_none.mpr hna, hEq⟩
  | setAnchor nodeID =>
    simp only [applyReferenceOp]
    unfold SetAndObserveAnchorTransformNodeID
    split
    · exact hd
    · split
      · exact hd
      · rename_i h2
        by_cases hns : nodeID = none
        · subst hns
          exact Or.inr (Or.inl rfl)
        · by_cases hsa : node.samplingTransformNodeID = none
          · exact Or.inl hsa
          · refine Or.inr (Or.inr ?_)
            intro hEq
            exact h2 ⟨Option.isSome_iff_ne_none.mpr hns,
              Option.isSome_iff_ne_none.mpr hsa, hEq.symm⟩

theorem referencesDistinct_foldl (start : NodeReferences) (ops : List ReferenceOp)
    (hd : ReferencesDistinct start) :
    ReferencesDistinct (List.foldl applyReferenceOp start ops) := by
  induction ops generalizing start with
  | nil => exact hd
  | cons op rest ih => exact ih _ (referencesDistinct_apply start op hd)

end ReferenceLemmas

/-- C6: `ComputePointCoordinates` fails (produces no point) exactly when the
sampling frame is absent; with a sampling frame and no anchor frame it returns
the translation components (elements (0,3), (1,3), (2,3)) of the sampling
frame's pose relative to world; with an anchor frame it returns the
translation components of the pose relative to the anchor frame. -/
theorem compute_point_coordinates_spec :
    (∀ node : CollectPointsNode,
        ComputePointCoordinates node = none ↔ node.samplingTransformNode = none)
  ∧ (∀ (node : CollectPointsNode) (s : LinearTransformNode),
        node.samplingTransformNode = some s → node.anchorTransformNode = none →
        ComputePointCoordinates node =
          some ⟨s.matrixTransformToWorld 0 3, s.matrixTransformToWorld 1 3,
            s.matrixTransformToWorld 2 3⟩)
  ∧ (∀ (node : CollectPointsNode) (s a : LinearTransformNode),
        node.samplingTransformNode = some s → node.anchorTransformNode = some a →
        ComputePointCoordinates node =
          some ⟨s.matrixTransformToNode 0 3, s.matrixTransformToNode 1 3,
            s.matrixTransformToNode 2 3⟩) := by
  refine ⟨?_, ?_, ?_⟩
  · intro node
    rcases hs : node.samplingTransformNode with _ | s
    · simp [ComputePointCoordinates, hs]
    · rcases ha : node.anchorTransformNode with _ | a <;>
        simp [ComputePointCoordinates, hs, ha]
  · intro node s hs ha
    simp [ComputePointCoordinates, hs, ha]
  · intro node s a hs ha
    simp [ComputePointCoordinates, hs, ha]

/-- C6 witness: a concrete sampling frame with no anchor yields the world-pose
translation column. -/
theorem compute_point_coordinates_spec_witness :
    ComputePointCoordinates sampledNode =
      some ⟨exampleTransform.matrixTransformToWorld 0 3,
        exampleTransform.matrixTransformToWorld 1 3,
        exampleTransform.matrixTransformToWorld 2 3⟩ ∧
    ComputePointCoordinates sampledNode = some ⟨3, 13, 23⟩ := by
  have h := compute_point_coordinates_spec.2.1 sampledNode exampleTransform rfl rfl
  refine ⟨h, ?_⟩
  rw [h]
  rfl

/-- C10: `GetNumberOfPointsInOutput` never fails and reads without mutating:
0 with no output bound, 0 for a mesh sink without poly data, 0 for an
unsupported output type, otherwise the bound sink's point count. -/
theorem get_number_of_points_spec :
    (∀ node : CollectPointsNode, node.outputNode = none →
        GetNumberOfPointsInOutput node = 0)
  ∧ (∀ (node : CollectPointsNode) (m : MarkupsFiducialNode),
        node.outputNode = some (OutputNode.markups m) →
        GetNumberOfPointsInOutput node = m.GetNumberOfFiducials)
  ∧ (∀ (node : CollectPointsNode) (mn : ModelNode),
        node.outputNode = some (OutputNode.model mn) → mn.polyData = none →
        GetNumberOfPointsInOutput node = 0)
  ∧ (∀ (node : CollectPointsNode) (mn : ModelNode) (pd : PolyData),
        node.outputNode = some (OutputNode.model mn) → mn.polyData = some pd →
        GetNumberOfPointsInOutput node = pd.GetNumberOfPoints)
  ∧ (∀ node : CollectPointsNode, node.outputNode = some OutputNode.other →
        GetNumberOfPointsInOutput node = 0) := by
  refine ⟨?_, ?_, ?_, ?_, ?_⟩
  · intro node h
    simp [GetNumberOfPointsInOutput, h]
  · intro node m h
    simp [GetNumberOfPointsInOutput, h]
  · intro node mn h hpd
    simp [GetNumberOfPointsInOutput, h, hpd]
  · intro node mn pd h hpd
    simp [GetNumberOfPointsInOutput, h, hpd]
  · intro node h
    simp [GetNumberOfPointsInOutput, h]

/-- C10 witness: a bound mesh sink with no poly data reports zero points. -/
theorem get_number_of_points_spec_witness :
    GetNumberOfPointsInOutput
      { unboundNode with outputNode := some (OutputNode.model { polyData := none }) } = 0 := by
  exact get_number_of_points_spec.2.2.1 _ { polyData := none } rfl rfl

/-- C9: `GetProbeTransformNode` is a pure rename of `GetSamplingTransformNode`,
but `SetAndObserveProbeTransformNodeID` recurses into itself instead of
delegating to `SetAndObserveSamplingTransformNodeID`: for every call depth the
call fails to return a final state, contradicting the claimed rename. -/
theorem probe_transform_alias_behaviour :
    (∀ (node : NodeReferences) (scene : String → Option LinearTransformNode),
        GetProbeTransformNode node scene = GetSamplingTransformNode node scene)
  ∧ (∀ (fuel : Nat) (node : NodeReferences) (nodeID : Option String),
        SetAndObserveProbeTransformNodeID fuel node nodeID = none) := by
  refine ⟨fun _ _ => rfl, ?_⟩
  intro fuel
  induction fuel with
  | zero => intro node nodeID; rfl
  | succ n ih => intro node nodeID; exact ih node nodeID

/-- C3 counterexample: with neither a sampling frame nor an output sink bound,
`AddPoint` reports `NoSamplingFrame`, not `NoOutput` as claimed. -/
theorem add_point_order_counterexample :
    (AddPoint unboundNode).2 = some AddPointError.NoSamplingFrame ∧
      (AddPoint unboundNode).2 ≠ some AddPointError.NoOutput := by
  constructor
  · rfl
  · intro h
    have h2 : AddPointError.NoSamplingFrame = AddPointError.NoOutput := Option.some.inj h
    cases h2

/-- C3 amended: `AddPoint` checks the sampling frame before the output sink,
so with neither bound the reported failure is `NoSamplingFrame`; with a
sampling frame but no sink it is `NoOutput`; in every failure case the session
and sink are unchanged. -/
theorem add_point_precondition_order :
    (∀ node : CollectPointsNode, node.samplingTransformNode = none →
        AddPoint node = (node, some AddPointError.NoSamplingFrame))
  ∧ (∀ (node : CollectPointsNode) (s : LinearTransformNode),
        node.samplingTransformNode = some s → node.outputNode = none →
        AddPoint node = (node, some AddPointError.NoOutput))
  ∧ (∀ (node : CollectPointsNode) (e : AddPointError),
        (AddPoint node).2 = some e → (AddPoint node).1 = node) := by
  refine ⟨?_, ?_, ?_⟩
  · intro node h
    simp [AddPoint, h]
  · intro node s hs ho
    simp [AddPoint, hs, ho]
  · intro node e he
    rcases hs : node.samplingTransformNode with _ | s
    · simp [AddPoint, hs]
    · rcases ho : node.outputNode with _ | o
      · simp [AddPoint, hs, ho]
      · rcases hc : ComputePointCoordinates node with _ | p
        · simp [AddPoint, hs, ho, hc]
        · cases o with
          | markups m => simp [AddPoint, hs, ho, hc] at he
          | model mn => simp [AddPoint, hs, ho, hc] at he
          | other => simp [AddPoint, hs, ho, hc]

/-- C3 amended witness: the two failure orders at concrete sessions. -/
theorem add_point_precondition_order_witness :
    AddPoint unboundNode = (unboundNode, some AddPointError.NoSamplingFrame) ∧
    AddPoint sampledNode = (sampledNode, some AddPointError.NoOutput) := by
  exact ⟨add_point_precondition_order.1 unboundNode rfl,
    add_point_precondition_order.2.1 sampledNode exampleTransform rfl rfl⟩

/-- C7: assigning the sampling (resp. anchor) reference to the frame currently
bound as the anchor (resp. sampling) is rejected with the configuration left
unchanged; any sequence of assignments on a fresh node therefore keeps the two
references distinct whenever both are set. -/
theorem frame_conflict_invariant :
    (∀ (node : NodeReferences) (nodeID : Option String), nodeID.isSome →
        nodeID = node.anchorTransformNodeID →
        SetAndObserveSamplingTransformNodeID node nodeID = node)
  ∧ (∀ (node : NodeReferences) (nodeID : Option String), nodeID.isSome →
        nodeID = node.samplingTransformNodeID →
        SetAndObserveAnchorTransformNodeID node nodeID = node)
  ∧ (∀ (node : NodeReferences) (op : ReferenceOp), ReferencesDistinct node →
        ReferencesDistinct (applyReferenceOp node op))
  ∧ (∀ ops : List ReferenceOp,
        ReferencesDistinct (List.foldl applyReferenceOp initialReferences ops)) := by
  refine ⟨setSampling_rejects_anchor, setAnchor_rejects_sampling, referencesDistinct_apply, ?_⟩
  intro ops
  exact referencesDistinct_foldl initialReferences ops (Or.inl rfl)

/-- C7 witness: binding the anchor's frame as sampling frame is rejected, and
a conflicting assignment sequence keeps the references distinct. -/
theorem frame_conflict_invariant_witness :
    SetAndObserveSamplingTransformNodeID
        { samplingTransformNodeID := none, anchorTransformNodeID := some "T1" } (some "T1") =
      { samplingTransformNodeID := none, anchorTransformNodeID := some "T1" } ∧
    ReferencesDistinct (List.foldl applyReferenceOp initialReferences
      [ReferenceOp.setSampling (some "T1"), ReferenceOp.setAnchor (some "T1")]) := by
  exact ⟨frame_conflict_invariant.1 _ (some "T1") rfl rfl,
    frame_conflict_invariant.2.2.2 _⟩

section GateLemmas

theorem lastMarkupsPoint_pos (m : MarkupsFiducialNode) (h : 0 < m.GetNumberOfFiducials) :
    lastMarkupsPoint m = some (m.GetNthFiducialPosition (m.GetNumberOfFiducials - 1)) := by
  unfold lastMarkupsPoint
  rw [if_neg (Nat.pos_iff_ne_zero.mp h)]

theorem lastMarkupsPoint_zero (m : MarkupsFiducialNode) (h : m.GetNumberOfFiducials = 0) :
    lastMarkupsPoint m = none := by
  unfold lastMarkupsPoint
  rw [if_pos h]

theorem lastPointOf_pos (points : List Point) (h : 0 < points.length) :
    lastPointOf points = some (points.getD (points.length - 1) ⟨0, 0, 0⟩) := by
  unfold lastPointOf
  rw [if_neg (Nat.pos_iff_ne_zero.mp h)]

theorem lastPointOf_zero (points : List Point) (h : points.length = 0) :
    lastPointOf points = none := by
  unfold lastPointOf
  rw [if_pos h]

theorem modelPointList_eq (mn : ModelNode) :
    modelPointList mn = (mn.polyData.getD emptyPolyData).points.getD [] := by
  rcases mn with ⟨_ | pd⟩ <;> rfl

/-- The updated markups node an admitted append produces: the new fiducial at
the end carries the fresh label and the candidate position. -/
theorem addFiducial_setLabel (m : MarkupsFiducialNode) (c : Point) (label : String) :
    (m.AddFiducialFromArray c).1.SetNthFiducialLabel (m.AddFiducialFromArray c).2 label =
      { fiducials := m.fiducials ++ [⟨label, c⟩] } := by
  unfold MarkupsFiducialNode.AddFiducialFromArray MarkupsFiducialNode.SetNthFiducialLabel
  simp [getD_append_length, set_append_length]

/-- Behaviour of `AddPointToMarkups` on a bound markups sink: either the gate
rejects (sink, label counter and session untouched) or it admits, appending
the labelled candidate and stepping the label counter. -/
theorem addPointToMarkups_spec (node : CollectPointsNode) (m : MarkupsFiducialNode)
    (c : Point) (h : node.outputNode = some (OutputNode.markups m)) :
    (¬ Admit c (lastMarkupsPoint m) (ComputeMinimumDistanceFromPreviousPointMm node) ∧
        AddPointToMarkups node c = node) ∨
    (Admit c (lastMarkupsPoint m) (ComputeMinimumDistanceFromPreviousPointMm node) ∧
        AddPointToMarkups node c = { node with
          outputNode := some (OutputNode.markups
            { fiducials := m.fiducials ++
                [⟨node.labelBase ++ toString node.labelCounter, c⟩] }),
          labelCounter := node.labelCounter + 1 }) := by
  have hunfold : AddPointToMarkups node c =
      if 0 < ComputeMinimumDistanceFromPreviousPointMm node ∧ 0 < m.GetNumberOfFiducials ∧
          distance2BetweenPoints c (m.GetNthFiducialPosition (m.GetNumberOfFiducials - 1)) <
            ComputeMinimumDistanceFromPreviousPointMm node ^ 2 then
        node
      else
        { node with
            outputNode := some (OutputNode.markups
              ((m.AddFiducialFromArray c).1.SetNthFiducialLabel (m.AddFiducialFromArray c).2
                (node.labelBase ++ toString node.labelCounter))),
            labelCounter := node.labelCounter + 1 } := by
    simp [AddPointToMarkups, h]
  by_cases hg : 0 < ComputeMinimumDistanceFromPreviousPointMm node ∧
      0 < m.GetNumberOfFiducials ∧
      distance2BetweenPoints c (m.GetNthFiducialPosition (m.GetNumberOfFiducials - 1)) <
        ComputeMinimumDistanceFromPreviousPointMm node ^ 2
  · left
    obtain ⟨hd0, hn0, hdist⟩ := hg
    constructor
    · rw [lastMarkupsPoint_pos m hn0, admit_some_iff _ _ _ hd0]
      simpa using hdist
    · rw [hunfold, if_pos ⟨hd0, hn0, hdist⟩]
  · right
    constructor
    · by_cases hd0 : 0 < ComputeMinimumDistanceFromPreviousPointMm node
      · by_cases hn0 : 0 < m.GetNumberOfFiducials
        · rw [lastMarkupsPoint_pos m hn0, admit_some_iff _ _ _ hd0]
          intro hdist
          exact hg ⟨hd0, hn0, hdist⟩
        · rw [lastMarkupsPoint_zero m (Nat.eq_zero_of_not_pos hn0)]
          exact admit_none _ _
      · exact admit_of_nonpos _ _ _ (le_of_not_lt hd0)
    · rw [hunfold, if_neg hg, addFiducial_setLabel]

/-- Behaviour of `AddPointToModel` on a bound mesh sink: gate rejection leaves
the stored points (and the rest of the session) unchanged, only materialising
a missing poly data or point array; admission appends the candidate and
rebuilds the cells. -/
theorem addPointToModel_spec (node : CollectPointsNode) (mn : ModelNode)
    (c : Point) (h : node.outputNode = some (OutputNode.model mn)) :
    (¬ Admit c (lastPointOf (modelPointList mn)) (ComputeMinimumDistanceFromPreviousPointMm node) ∧
        AddPointToModel node c =
          { node with
            outputNode := some (OutputNode.model
              { polyData := some
                  { mn.polyData.getD emptyPolyData with points := some (modelPointList mn) } }) }) ∨
    (Admit c (lastPointOf (modelPointList mn)) (ComputeMinimumDistanceFromPreviousPointMm node) ∧
        AddPointToModel node c =
          { node with
            outputNode := some (OutputNode.model
              { polyData := some (UpdateCellsForPolyData
                  { mn.polyData.getD emptyPolyData with
                    points := some (modelPointList mn ++ [c]) }) }) }) := by
  have hpts : (mn.polyData.getD emptyPolyData).points.getD [] = modelPointList mn :=
    (modelPointList_eq mn).symm
  have hunfold : AddPointToModel node c =
      if 0 < ComputeMinimumDistanceFromPreviousPointMm node ∧ 0 < (modelPointList mn).length ∧
          distance2BetweenPoints c
              ((modelPointList mn).getD ((modelPointList mn).length - 1) ⟨0, 0, 0⟩) <
            ComputeMinimumDistanceFromPreviousPointMm node ^ 2 then
        { node with
          outputNode := some (OutputNode.model
            { polyData := some
                { mn.polyData.getD emptyPolyData with points := some (modelPointList mn) } }) }
      else
        { node with
          outputNode := some (OutputNode.model
            { polyData := some (UpdateCellsForPolyData
                { mn.polyData.getD emptyPolyData with
                  points := some (modelPointList mn ++ [c]) }) }) } := by
    simp only [AddPointToModel, h, hpts]
  by_cases hg : 0 < ComputeMinimumDistanceFromPreviousPointMm node ∧
      0 < (modelPointList mn).length ∧
      distance2BetweenPoints c
          ((modelPointList mn).getD ((modelPointList mn).length - 1) ⟨0, 0, 0⟩) <
        ComputeMinimumDistanceFromPreviousPointMm node ^ 2
  · left
    obtain ⟨hd0, hn0, hdist⟩ := hg
    constructor
    · rw [lastPointOf_pos _ hn0, admit_some_iff _ _ _ hd0]
      simpa using hdist
    · rw [hunfold, if_pos ⟨hd0, hn0, hdist⟩]
  · right
    constructor
    · by_cases hd0 : 0 < ComputeMinimumDistanceFromPreviousPointMm node
      · by_cases hn0 : 0 < (modelPointList mn).length
        · rw [lastPointOf_pos _ hn0, admit_some_iff _ _ _ hd0]
          intro hdist
          exact hg ⟨hd0, hn0, hdist⟩
        · rw [lastPointOf_zero _ (Nat.eq_zero_of_not_pos hn0)]
          exact admit_none _ _
      · exact admit_of_nonpos _ _ _ (le_of_not_lt hd0)
    · rw [hunfold, if_neg hg]

end GateLemmas

section PreservationLemmas

theorem addPointToMarkups_labelCounter_le (node : CollectPointsNode) (c : Point) :
    node.labelCounter ≤ (AddPointToMarkups node c).labelCounter := by
  rcases h : node.outputNode with _ | om
  · simp [AddPointToMarkups, h]
  · cases om with
    | markups m =>
      simp only [AddPointToMarkups, h]
      split
      · exact le_refl _
      · exact Nat.le_succ _
    | model mn => simp [AddPointToMarkups, h]
    | other => simp [AddPointToMarkups, h]

theorem addPointToModel_labelCounter (node : CollectPointsNode) (c : Point) :
    (AddPointToModel node c).labelCounter = node.labelCounter := by
  rcases h : node.outputNode with _ | om
  · simp [AddPointToModel, h]
  · cases om with
    | markups m => simp [AddPointToModel, h]
    | model mn =>
      simp only [AddPointToModel, h]
      split <;> rfl
    | other => simp [AddPointToModel, h]

theorem addPoint_labelCounter_le (node : CollectPointsNode) :
    node.labelCounter ≤ (AddPoint node).1.labelCounter := by
  rcases hs : node.samplingTransformNode with _ | st
  · simp [AddPoint, hs]
  · rcases ho : node.outputNode with _ | o
    · simp [AddPoint, hs, ho]
    · rcases hc : ComputePointCoordinates node with _ | p
      · simp [AddPoint, hs, ho, hc]
      · cases o with
        | markups m =>
          simpa [AddPoint, hs, ho, hc] using addPointToMarkups_labelCounter_le node p
        | model mn =>
          simp [AddPoint, hs, ho, hc, addPointToModel_labelCounter node p]
        | other => simp [AddPoint, hs, ho, hc]

theorem removeLastPoint_labelCounter (node : CollectPointsNode) :
    (RemoveLastPoint node).1.labelCounter = node.labelCounter := by
  rcases h : node.outputNode with _ | om
  · simp [RemoveLastPoint, h]
  · cases om with
    | markups m =>
      simp only [RemoveLastPoint, h]
      split <;> rfl
    | model mn => simp [RemoveLastPoint, h]
    | other => simp [RemoveLastPoint, h]

theorem removeAllPoints_labelCounter (node : CollectPointsNode) :
    (RemoveAllPoints node).1.labelCounter = node.labelCounter := by
  rcases h : node.outputNode with _ | om
  · simp [RemoveAllPoints, h]
  · cases om <;> simp [RemoveAllPoints, h]

theorem processEvents_labelCounter_le (node : CollectPointsNode) (e : Bool) :
    node.labelCounter ≤ (ProcessMRMLNodesEvents node e).labelCounter := by
  unfold ProcessMRMLNodesEvents
  split
  · split
    · split
      · exact le_refl node.labelCounter
      · exact addPoint_labelCounter_le node
    · exact le_refl node.labelCounter
  · exact le_refl node.labelCounter

theorem applySessionOp_labelCounter_le (node : CollectPointsNode) (op : SessionOp) :
    node.labelCounter ≤ (applySessionOp node op).labelCounter := by
  cases op with
  | addPoint => exact addPoint_labelCounter_le node
  | removeLastPoint => exact le_of_eq (removeLastPoint_labelCounter node).symm
  | removeAllPoints => exact le_of_eq (removeAllPoints_labelCounter node).symm
  | inputDataModifiedEvent => exact processEvents_labelCounter_le node true

theorem foldl_labelCounter_le (node : CollectPointsNode) (ops : List SessionOp) :
    node.labelCounter ≤ (List.foldl applySessionOp node ops).labelCounter := by
  induction ops generalizing node with
  | nil => exact le_refl _
  | cons op rest ih =>
    exact le_trans (applySessionOp_labelCounter_le node op) (ih (applySessionOp node op))

theorem addPointToMarkups_collectMode (node : CollectPointsNode) (c : Point) :
    (AddPointToMarkups node c).collectMode = node.collectMode := by
  rcases h : node.outputNode with _ | om
  · simp [AddPointToMarkups, h]
  · cases om with
    | markups m =>
      simp only [AddPointToMarkups, h]
      split <;> rfl
    | model mn => simp [AddPointToMarkups, h]
    | other => simp [AddPointToMarkups, h]

theorem addPointToModel_collectMode (node : CollectPointsNode) (c : Point) :
    (AddPointToModel node c).collectMode = node.collectMode := by
  rcases h : node.outputNode with _ | om
  · simp [AddPointToModel, h]
  · cases om with
    | markups m => simp [AddPointToModel, h]
    | model mn =>
      simp only [AddPointToModel, h]
      split <;> rfl
    | other => simp [AddPointToModel, h]

theorem addPoint_collectMode (node : CollectPointsNode) :
    (AddPoint node).1.collectMode = node.collectMode := by
  rcases hs : node.samplingTransformNode with _ | st
  · simp [AddPoint, hs]
  · rcases ho : node.outputNode with _ | o
    · simp [AddPoint, hs, ho]
    · rcases hc : ComputePointCoordinates node with _ | p
      · simp [AddPoint, hs, ho, hc]
      · cases o with
        | markups m =>
          simpa [AddPoint, hs, ho, hc] using addPointToMarkups_collectMode node p
        | model mn =>
          simp [AddPoint, hs, ho, hc, addPointToModel_collectMode node p]
        | other => simp [AddPoint, hs, ho, hc]

theorem removeLastPoint_collectMode (node : CollectPointsNode) :
    (RemoveLastPoint node).1.collectMode = node.collectMode := by
  rcases h : node.outputNode with _ | om
  · simp [RemoveLastPoint, h]
  · cases om with
    | markups m =>
      simp only [RemoveLastPoint, h]
      split <;> rfl
    | model mn => simp [RemoveLastPoint, h]
    | other => simp [RemoveLastPoint, h]

theorem removeAllPoints_collectMode (node : CollectPointsNode) :
    (RemoveAllPoints node).1.collectMode = node.collectMode := by
  rcases h : node.outputNode with _ | om
  · simp [RemoveAllPoints, h]
  · cases om <;> simp [RemoveAllPoints, h]

end PreservationLemmas

/-- C1: the distance gate admits whenever the minimum distance is ≤ 0 or the
sink is empty (no previous point); with a positive minimum and a previous
point it admits exactly when the Euclidean distance is at least the minimum
(equality admits); and both sink variants append exactly when the gate
admits with the last stored point as the previous point. -/
theorem distance_gate_spec :
    (∀ (candidate : Point) (previous : Option Point) (minimumDistanceMm : ℚ),
        minimumDistanceMm ≤ 0 → Admit candidate previous minimumDistanceMm)
  ∧ (∀ (candidate : Point) (minimumDistanceMm : ℚ), Admit candidate none minimumDistanceMm)
  ∧ (∀ (candidate prev : Point) (minimumDistanceMm : ℚ), 0 < minimumDistanceMm →
        (Admit candidate (some prev) minimumDistanceMm ↔
          (minimumDistanceMm : ℝ) ≤
            Real.sqrt ((distance2BetweenPoints candidate prev : ℚ) : ℝ)))
  ∧ (∀ (node : CollectPointsNode) (m : MarkupsFiducialNode) (candidate : Point),
        node.outputNode = some (OutputNode.markups m) →
        (GetNumberOfPointsInOutput (AddPointToMarkups node candidate) =
            m.GetNumberOfFiducials + 1 ↔
          Admit candidate (lastMarkupsPoint m)
            (ComputeMinimumDistanceFromPreviousPointMm node)))
  ∧ (∀ (node : CollectPointsNode) (mn : ModelNode) (candidate : Point),
        node.outputNode = some (OutputNode.model mn) →
        (GetNumberOfPointsInOutput (AddPointToModel node candidate) =
            (modelPointList mn).length + 1 ↔
          Admit candidate (lastPointOf (modelPointList mn))
            (ComputeMinimumDistanceFromPreviousPointMm node))) := by
  refine ⟨fun c p d h => admit_of_nonpos c p d h, fun c d => admit_none c d, ?_, ?_, ?_⟩
  · intro c p d h
    show d ≤ 0 ∨ _ ↔ _
    exact or_iff_right (not_le.mpr h)
  · intro node m c h
    have hbase : GetNumberOfPointsInOutput node = m.GetNumberOfFiducials := by
      simp [GetNumberOfPointsInOutput, h]
    rcases addPointToMarkups_spec node m c h with ⟨hna, heq⟩ | ⟨ha, heq⟩
    · rw [heq, hbase]
      constructor
      · intro hcount
        exact absurd hcount (Nat.ne_of_lt (Nat.lt_succ_self _))
      · intro ha
        exact absurd ha hna
    · rw [heq]
      constructor
      · intro _
        exact ha
      · intro _
        simp [GetNumberOfPointsInOutput, MarkupsFiducialNode.GetNumberOfFiducials]
  · intro node mn c h
    rcases addPointToModel_spec node mn c h with ⟨hna, heq⟩ | ⟨ha, heq⟩
    · rw [heq]
      have hcount : GetNumberOfPointsInOutput
          { node with
            outputNode := some (OutputNode.model
              { polyData := some
                  { mn.polyData.getD emptyPolyData with
                    points := some (modelPointList mn) } }) } =
          (modelPointList mn).length := by
        simp [GetNumberOfPointsInOutput, PolyData.GetNumberOfPoints]
      rw [hcount]
      constructor
      · intro hc
        exact absurd hc (Nat.ne_of_lt (Nat.lt_succ_self _))
      · intro ha
        exact absurd ha hna
    · rw [heq]
      constructor
      · intro _
        exact ha
      · intro _
        simp [GetNumberOfPointsInOutput, PolyData.GetNumberOfPoints, UpdateCellsForPolyData]

/-- A markups sink holding one point at the origin, and an automatic-mode
session with a 5 mm gate bound to it. -/
def gateMarkups : MarkupsFiducialNode := { fiducials := [⟨"P0", ⟨0, 0, 0⟩⟩] }

def gateNode : CollectPointsNode :=
  { labelBase := "P", labelCounter := 1, minimumDistanceMm := 5,
    collectMode := CollectMode.Automatic, samplingTransformNode := none,
    anchorTransformNode := none, outputNode := some (OutputNode.markups gateMarkups) }

/-- C1 witness: a candidate at exactly the 5 mm minimum distance from the
previous point is admitted (boundary inclusive). -/
theorem distance_gate_spec_witness :
    GetNumberOfPointsInOutput (AddPointToMarkups gateNode ⟨3, 4, 0⟩) = 2 := by
  refine (distance_gate_spec.2.2.2.1 gateNode gateMarkups ⟨3, 4, 0⟩ rfl).mpr ?_
  exact (admit_some_iff ⟨3, 4, 0⟩ ⟨0, 0, 0⟩ 5 (by norm_num)).mpr
    (by norm_num [distance2BetweenPoints])

/-- C5: the effective minimum distance is the configured value in automatic
mode and 0 otherwise, so a manual request is never rejected on distance
grounds: in manual mode both sink variants always append. -/
theorem effective_minimum_distance_spec :
    (∀ node : CollectPointsNode, ComputeMinimumDistanceFromPreviousPointMm node =
        if node.collectMode = CollectMode.Automatic then node.minimumDistanceMm else 0)
  ∧ (∀ (node : CollectPointsNode) (m : MarkupsFiducialNode) (candidate : Point),
        node.collectMode = CollectMode.Manual →
        node.outputNode = some (OutputNode.markups m) →
        GetNumberOfPointsInOutput (AddPointToMarkups node candidate) =
          m.GetNumberOfFiducials + 1)
  ∧ (∀ (node : CollectPointsNode) (mn : ModelNode) (candidate : Point),
        node.collectMode = CollectMode.Manual →
        node.outputNode = some (OutputNode.model mn) →
        GetNumberOfPointsInOutput (AddPointToModel node candidate) =
          (modelPointList mn).length + 1) := by
  refine ⟨fun node => rfl, ?_, ?_⟩
  · intro node m c hmode h
    have hdz : ComputeMinimumDistanceFromPreviousPointMm node = 0 := by
      simp [ComputeMinimumDistanceFromPreviousPointMm, hmode]
    rcases addPointToMarkups_spec node m c h with ⟨hna, _⟩ | ⟨_, heq⟩
    · exact absurd (admit_of_nonpos _ _ _ (le_of_eq hdz)) hna
    · rw [heq]
      simp [GetNumberOfPointsInOutput, MarkupsFiducialNode.GetNumberOfFiducials]
  · intro node mn c hmode h
    have hdz : ComputeMinimumDistanceFromPreviousPointMm node = 0 := by
      simp [ComputeMinimumDistanceFromPreviousPointMm, hmode]
    rcases addPointToModel_spec node mn c h with ⟨hna, _⟩ | ⟨_, heq⟩
    · exact absurd (admit_of_nonpos _ _ _ (le_of_eq hdz)) hna
    · rw [heq]
      simp [GetNumberOfPointsInOutput, PolyData.GetNumberOfPoints, UpdateCellsForPolyData]

/-- The session of `gateNode` switched to manual collection. -/
def manualNode : CollectPointsNode := { gateNode with collectMode := CollectMode.Manual }

/-- C5 witness: in manual mode a candidate only 1 mm from the previous point
is still appended despite the configured 5 mm minimum. -/
theorem effective_minimum_distance_spec_witness :
    GetNumberOfPointsInOutput (AddPointToMarkups manualNode ⟨1, 0, 0⟩) = 2 := by
  exact effective_minimum_distance_spec.2.1 manualNode gateMarkups ⟨1, 0, 0⟩ rfl rfl

/-- C4: an admitted point-set append stores the label `labelBase ++ decimal
labelCounter` and then increments the counter by exactly 1; the counter is
untouched by gate rejection, mesh appends, RemoveLast and RemoveAll, and is
monotonically non-decreasing over every sequence of session requests. -/
theorem label_counter_spec :
    (∀ (node : CollectPointsNode) (m : MarkupsFiducialNode) (candidate : Point),
        node.outputNode = some (OutputNode.markups m) →
        Admit candidate (lastMarkupsPoint m) (ComputeMinimumDistanceFromPreviousPointMm node) →
        AddPointToMarkups node candidate = { node with
          outputNode := some (OutputNode.markups
            { fiducials := m.fiducials ++
                [⟨node.labelBase ++ toString node.labelCounter, candidate⟩] }),
          labelCounter := node.labelCounter + 1 })
  ∧ (∀ (node : CollectPointsNode) (m : MarkupsFiducialNode) (candidate : Point),
        node.outputNode = some (OutputNode.markups m) →
        ¬ Admit candidate (lastMarkupsPoint m)
            (ComputeMinimumDistanceFromPreviousPointMm node) →
        AddPointToMarkups node candidate = node)
  ∧ (∀ (node : CollectPointsNode) (candidate : Point),
        (AddPointToModel node candidate).labelCounter = node.labelCounter)
  ∧ (∀ node : CollectPointsNode, (RemoveLastPoint node).1.labelCounter = node.labelCounter)
  ∧ (∀ node : CollectPointsNode, (RemoveAllPoints node).1.labelCounter = node.labelCounter)
  ∧ (∀ (node : CollectPointsNode) (ops : List SessionOp),
        node.labelCounter ≤ (List.foldl applySessionOp node ops).labelCounter) := by
  refine ⟨?_, ?_, addPointToModel_labelCounter, removeLastPoint_labelCounter,
    removeAllPoints_labelCounter, foldl_labelCounter_le⟩
  · intro node m c h ha
    rcases addPointToMarkups_spec node m c h with ⟨hna, _⟩ | ⟨_, heq⟩
    · exact absurd ha hna
    · exact heq
  · intro node m c h hna
    rcases addPointToMarkups_spec node m c h with ⟨_, heq⟩ | ⟨ha, _⟩
    · exact heq
    · exact absurd ha hna

/-- An idle manual session bound to an empty markups sink. -/
def nodeA : CollectPointsNode :=
  { unboundNode with outputNode := some (OutputNode.markups { fiducials := [] }) }

/-- C4 witness: the first admitted point-set append on a fresh session stores
label "P0" and steps the counter from 0 to 1. -/
theorem label_counter_spec_witness :
    AddPointToMarkups nodeA ⟨0, 0, 0⟩ = { nodeA with
      outputNode := some (OutputNode.markups { fiducials := [⟨"P0", ⟨0, 0, 0⟩⟩] }),
      labelCounter := 1 } := by
  have h := label_counter_spec.1 nodeA { fiducials := [] } ⟨0, 0, 0⟩ rfl
    (admit_none ⟨0, 0, 0⟩ (ComputeMinimumDistanceFromPreviousPointMm nodeA))
  rw [h]
  rfl

/-- C8: a frame-change notification does nothing in manual mode; in automatic
mode with the sink or sampling frame unbound it only falls back to manual mode
(no point added, warning only) — and this fallback is the sole implicit
automatic-to-manual transition among the session requests; in automatic mode
with both bound it behaves exactly as `AddPoint`. -/
theorem automatic_event_spec :
    (∀ (node : CollectPointsNode) (e : Bool), node.collectMode = CollectMode.Manual →
        ProcessMRMLNodesEvents node e = node)
  ∧ (∀ node : CollectPointsNode, node.collectMode = CollectMode.Automatic →
        (node.outputNode = none ∨ node.samplingTransformNode = none) →
        ProcessMRMLNodesEvents node true = { node with collectMode := CollectMode.Manual })
  ∧ (∀ node : CollectPointsNode, node.collectMode = CollectMode.Automatic →
        node.outputNode ≠ none → node.samplingTransformNode ≠ none →
        ProcessMRMLNodesEvents node true = (AddPoint node).1)
  ∧ (∀ (node : CollectPointsNode) (op : SessionOp),
        (applySessionOp node op).collectMode = node.collectMode ∨
          (node.collectMode = CollectMode.Automatic ∧
            (node.outputNode = none ∨ node.samplingTransformNode = none) ∧
            op = SessionOp.inputDataModifiedEvent ∧
            applySessionOp node op = { node with collectMode := CollectMode.Manual })) := by
  have hfall : ∀ node : CollectPointsNode, node.collectMode = CollectMode.Automatic →
      (node.outputNode = none ∨ node.samplingTransformNode = none) →
      ProcessMRMLNodesEvents node true = { node with collectMode := CollectMode.Manual } := by
    intro node hmode hnone
    have hb : (node.outputNode.isNone || node.samplingTransformNode.isNone) = true := by
      rcases hnone with h | h <;> simp [h]
    simp [ProcessMRMLNodesEvents, hmode, hb]
  have hrun : ∀ node : CollectPointsNode, node.collectMode = CollectMode.Automatic →
      node.outputNode ≠ none → node.samplingTransformNode ≠ none →
      ProcessMRMLNodesEvents node true = (AddPoint node).1 := by
    intro node hmode ho hs
    have hb : (node.outputNode.isNone || node.samplingTransformNode.isNone) = false := by
      rcases hx : node.outputNode with _ | o
      · exact absurd hx ho
      · rcases hy : node.samplingTransformNode with _ | st
        · exact absurd hy hs
        · rfl
    simp [ProcessMRMLNodesEvents, hmode, hb]
  refine ⟨?_, hfall, hrun, ?_⟩
  · intro node e hmode
    cases e with
    | false => rfl
    | true => simp [ProcessMRMLNodesEvents, hmode]
  · intro node op
    cases op with
    | addPoint => exact Or.inl (addPoint_collectMode node)
    | removeLastPoint => exact Or.inl (removeLastPoint_collectMode node)
    | removeAllPoints => exact Or.inl (removeAllPoints_collectMode node)
    | inputDataModifiedEvent =>
      by_cases hmode : node.collectMode = CollectMode.Automatic
      · by_cases hout : node.outputNode = none
        · refine Or.inr ⟨hmode, Or.inl hout, rfl, ?_⟩
          exact hfall node hmode (Or.inl hout)
        · by_cases hsamp : node.samplingTransformNode = none
          · refine Or.inr ⟨hmode, Or.inr hsamp, rfl, ?_⟩
            exact hfall node hmode (Or.inr hsamp)
          · refine Or.inl ?_
            have heq : applySessionOp node SessionOp.inputDataModifiedEvent =
                (AddPoint node).1 := hrun node hmode hout hsamp
            rw [heq]
            exact addPoint_collectMode node
      · refine Or.inl ?_
        have heq : applySessionOp node SessionOp.inputDataModifiedEvent = node := by
          simp [applySessionOp, ProcessMRMLNodesEvents, hmode]
        rw [heq]

/-- An automatic-mode session with nothing bound. -/
def autoNode : CollectPointsNode :=
  { unboundNode with collectMode := CollectMode.Automatic }

/-- C8 witness: a frame-change notification on an automatic session with no
output bound reverts the mode to manual and changes nothing else. -/
theorem automatic_event_spec_witness :
    ProcessMRMLNodesEvents autoNode true = { autoNode with collectMode := CollectMode.Manual } := by
  exact automatic_event_spec.2.1 autoNode rfl (Or.inl rfl)

section MeshLemmas

theorem meshInvariant_empty : MeshInvariant { polyData := none } := by
  intro pd h
  exact Option.noConfusion h

theorem updateCells_meshInvariant (pd : PolyData) :
    MeshInvariant { polyData := some (UpdateCellsForPolyData pd) } := by
  intro pd2 h
  rw [Option.some_inj] at h
  subst h
  exact ⟨rfl, rfl, rfl⟩

theorem meshInvariant_applyMeshOp (mn : ModelNode) (op : MeshOp) (h : MeshInvariant mn) :
    MeshInvariant (applyMeshOp mn op) := by
  cases op with
  | append c d mode =>
    have hout : (nodeWithModel mn d mode).outputNode = some (OutputNode.model mn) := rfl
    rcases addPointToModel_spec (nodeWithModel mn d mode) mn c hout with ⟨_, heq⟩ | ⟨_, heq⟩
    · have heq2 : applyMeshOp mn (MeshOp.append c d mode) =
          { polyData := some
              { mn.polyData.getD emptyPolyData with points := some (modelPointList mn) } } := by
        simp [applyMeshOp, heq, modelOfNode]
      rw [heq2]
      intro pd2 h2
      rw [Option.some_inj] at h2
      subst h2
      rcases hp : mn.polyData with _ | pd
      · refine ⟨?_, ?_, ?_⟩ <;>
          simp [hp, modelPointList, emptyPolyData, PolyData.GetNumberOfPoints]
      · obtain ⟨hv, hl, hpo⟩ := h pd hp
        refine ⟨?_, ?_, ?_⟩
        · simpa [hp, modelPointList, PolyData.GetNumberOfPoints] using hv
        · simpa [hp] using hl
        · simpa [hp] using hpo
    · have heq2 : applyMeshOp mn (MeshOp.append c d mode) =
          { polyData := some (UpdateCellsForPolyData
              { mn.polyData.getD emptyPolyData with
                points := some (modelPointList mn ++ [c]) }) } := by
        simp [applyMeshOp, heq, modelOfNode]
      rw [heq2]
      exact updateCells_meshInvariant _
  | removeLast =>
    show MeshInvariant (RemoveLastPointFromModel mn)
    rcases hp : mn.polyData with _ | pd
    · have heq : RemoveLastPointFromModel mn =
          { polyData := some { emptyPolyData with points := some [] } } := by
        simp [RemoveLastPointFromModel, hp, emptyPolyData]
      rw [heq]
      intro pd2 h2
      rw [Option.some_inj] at h2
      subst h2
      exact ⟨rfl, rfl, rfl⟩
    · obtain ⟨hv, hl, hpo⟩ := h pd hp
      rcases hpts : pd.points with _ | l
      · have heq : RemoveLastPointFromModel mn =
            { polyData := some { pd with points := some [] } } := by
          simp [RemoveLastPointFromModel, hp, hpts]
        rw [heq]
        intro pd2 h2
        rw [Option.some_inj] at h2
        subst h2
        refine ⟨?_, hl, hpo⟩
        simpa [PolyData.GetNumberOfPoints, hpts] using hv
      · by_cases hlen : l.length = 0
        · have heq : RemoveLastPointFromModel mn =
              { polyData := some { pd with points := some [] } } := by
            simp [RemoveLastPointFromModel, hp, hpts, hlen]
          rw [heq]
          intro pd2 h2
          rw [Option.some_inj] at h2
          subst h2
          refine ⟨?_, hl, hpo⟩
          simpa [PolyData.GetNumberOfPoints, hpts, hlen] using hv
        · have heq : RemoveLastPointFromModel mn =
              { polyData := some (UpdateCellsForPolyData
                  { pd with points := some (l.take (l.length - 1)) }) } := by
            simp [RemoveLastPointFromModel, hp, hpts, hlen]
          rw [heq]
          exact updateCells_meshInvariant _
  | removeAll =>
    have heq : applyMeshOp mn MeshOp.removeAll = { polyData := some emptyPolyData } := by
      simp [applyMeshOp, RemoveAllPoints, nodeWithModel, modelOfNode]
    rw [heq]
    intro pd2 h2
    rw [Option.some_inj] at h2
    subst h2
    exact ⟨rfl, rfl, rfl⟩

theorem meshInvariant_foldl (mn : ModelNode) (ops : List MeshOp) (h : MeshInvariant mn) :
    MeshInvariant (List.foldl applyMeshOp mn ops) := by
  induction ops generalizing mn with
  | nil => exact h
  | cons op rest ih => exact ih _ (meshInvariant_applyMeshOp mn op h)

end MeshLemmas

/-- C2: after any finite sequence of append/remove-last/remove-all operations
on a mesh sink, the topology is exactly one single-point vertex cell per point
in point-index order (so cell count equals point count) with no line or
polygon cells; and remove-last on an empty mesh sink is a count-preserving
no-op that leaves the topology empty. -/
theorem mesh_topology_invariant :
    (∀ ops : List MeshOp, MeshInvariant (List.foldl applyMeshOp { polyData := none } ops))
  ∧ (∀ (mn : ModelNode) (op : MeshOp), MeshInvariant mn → MeshInvariant (applyMeshOp mn op))
  ∧ (∀ (mn : ModelNode) (pd : PolyData), MeshInvariant mn → mn.polyData = some pd →
        pd.verts.length = pd.GetNumberOfPoints ∧ pd.lines = [] ∧ pd.polys = [])
  ∧ (∀ mn : ModelNode, MeshInvariant mn → modelPointList mn = [] →
        RemoveLastPointFromModel mn =
          { polyData := some { points := some [], verts := [], lines := [], polys := [] } }) := by
  refine ⟨fun ops => meshInvariant_foldl _ ops meshInvariant_empty,
    fun mn op h => meshInvariant_applyMeshOp mn op h, ?_, ?_⟩
  · intro mn pd h hp
    obtain ⟨hv, hl, hpo⟩ := h pd hp
    refine ⟨?_, hl, hpo⟩
    rw [hv]
    simp
  · intro mn h hemp
    rcases hp : mn.polyData with _ | pd
    · have heq : RemoveLastPointFromModel mn =
          { polyData := some { emptyPolyData with points := some [] } } := by
        simp [RemoveLastPointFromModel, hp, emptyPolyData]
      rw [heq]
      rfl
    · obtain ⟨hv, hl, hpo⟩ := h pd hp
      have hplist : modelPointList mn = pd.points.getD [] := by
        simp [modelPointList, hp]
      rw [hplist] at hemp
      have hcount : pd.GetNumberOfPoints = 0 := by
        simp [PolyData.GetNumberOfPoints, hemp]
      have hverts : pd.verts = [] := by
        rw [hv, hcount]
        rfl
      rcases hpts : pd.points with _ | l
      · have heq : RemoveLastPointFromModel mn =
            { polyData := some { pd with points := some [] } } := by
          simp [RemoveLastPointFromModel, hp, hpts]
        rw [heq]
        cases pd
        simp only at hverts hl hpo
        rw [hverts, hl, hpo]
      · have hle : l = [] := by
          rw [hpts] at hemp
          simpa using hemp
        have heq : RemoveLastPointFromModel mn =
            { polyData := some { pd with points := some [] } } := by
          simp [RemoveLastPointFromModel, hp, hpts, hle]
        rw [heq]
        cases pd
        simp only at hverts hl hpo
        rw [hverts, hl, hpo]

/-- C2 witness: remove-last on the fresh (empty) mesh sink installs an empty
point array and leaves the topology empty. -/
theorem mesh_topology_invariant_witness :
    RemoveLastPointFromModel { polyData := none } =
      { polyData := some { points := some [], verts := [], lines := [], polys := [] } } := by
  exact mesh_topology_invariant.2.2.2 { polyData := none } meshInvariant_empty rfl

end CollectPoints
